import Mathlib

/-!
Verification of the darling data-reduction core (`src/darling/_dataset.py`)
via a shallow embedding.  Raw detector counts are unsigned 16-bit integers,
modelled as naturals with explicit `% 2^16` where numpy wraps; floating point
values are modelled exactly as rationals (with real-number statements for the
square-root comparisons of the background estimator); numpy/scipy errors are
modelled with `Except`.
-/

namespace Darling

/-- Error values surfaced by the numpy/scipy layer: `AttributeError` from a
missing method lookup, `IndexError` from out-of-range fancy indexing,
`ValueError` from reductions with mismatched output shapes or empty input. -/
inductive PyErr where
  | attributeError
  | indexError
  | valueError
  deriving DecidableEq, Repr

/-! ## Thresholder: `DataSet.subtract`

Source (`_dataset.py:308`):
```
def subtract(self, value):
    self.data.clip(value, None, out=self.data)
    self.data -= value
```
The buffer is `np.uint16`; clipping below by `value` and the in-place
subtraction both act elementwise, the subtraction wrapping modulo 2^16. -/

/-- Size of the `uint16` value space. -/
def U16 : ℕ := 65536

/-- `self.data.clip(value, None, out=self.data)`: clamp every element below
`value` up to `value`. -/
def clipMin (value : ℕ) (data : List ℕ) : List ℕ :=
  data.map (fun x => max x value)

/-- `self.data -= value` on a `uint16` buffer: elementwise subtraction
modulo 2^16 (numpy wraps on unsigned underflow). -/
def subScalarU16 (value : ℕ) (data : List ℕ) : List ℕ :=
  data.map (fun x => (x + (U16 - value % U16)) % U16)

/-- `DataSet.subtract(value)`: clip below by `value`, then subtract `value`. -/
def subtract (value : ℕ) (data : List ℕ) : List ℕ :=
  subScalarU16 value (clipMin value data)

/-! ## BackgroundEstimator: `DataSet.estimate_background`

Source (`_dataset.py:318`):
```
sample_size = 40000
index = np.random.permutation(sample_size)
sample = self.data.flat[index]
sample = np.sort(sample)
noise = sample.copy()
for i in range(20):
    mu = np.median(noise)
    std = np.std(noise)
    noise = noise[np.abs(noise) < mu + 2 * 3.891 * std]  # 99.99% confidence
background = np.max(noise)
return background
```
The random draw `np.random.permutation(40000)` is modelled by an explicit
parameter `perm`, a list that is a permutation of `[0, ..., 39999]`.
`self.data.flat[index]` raises `IndexError` when any index is out of range;
`np.max` of an empty array raises `ValueError`.  The decimal literal
`3.891` is modelled as the exact rational `3891/1000`. -/

/-- The fixed sample size used by `estimate_background`. -/
def SAMPLE_SIZE : ℕ := 40000

/-- `self.data.flat[index]`: gather of flat positions `perm` out of the
flattened volume (guarded by a bounds check at the call site). -/
def sampleOf (perm : List ℕ) (data : List ℕ) : List ℚ :=
  perm.map (fun i => ((data.getD i 0 : ℕ) : ℚ))

/-- Insert a value into a sorted list, keeping it sorted ascending. -/
def insertSorted (x : ℚ) : List ℚ → List ℚ
  | [] => [x]
  | y :: ys => if x ≤ y then x :: y :: ys else y :: insertSorted x ys

/-- `np.sort`: sort ascending (insertion sort; any correct sort agrees). -/
def sortAsc (xs : List ℚ) : List ℚ :=
  xs.foldr insertSorted []

/-- Arithmetic mean of a list (`np.mean`); the empty list gives `0/0 = 0`
in `ℚ`, a value that is never consumed on a meaningful path. -/
def listMean (xs : List ℚ) : ℚ :=
  xs.sum / xs.length

/-- Population variance (`np.std` squared, `ddof = 0`):
mean of the squared deviations from the mean. -/
def variance (xs : List ℚ) : ℚ :=
  ((xs.map (fun x => (x - listMean xs) ^ 2)).sum) / xs.length

/-- `np.median`: middle element of the sorted data, or the average of the two
middle elements for even length.  `np.median` of an empty array is NaN; the
`0` returned here is irrelevant because filtering an empty list yields the
empty list under any bound. -/
def median (xs : List ℚ) : ℚ :=
  let s := sortAsc xs
  if xs.length % 2 = 1 then s.getD (xs.length / 2) 0
  else (s.getD (xs.length / 2 - 1) 0 + s.getD (xs.length / 2) 0) / 2

/-- The confidence multiplier `2 * 3.891` of the rejection bound. -/
def cBound : ℚ := 2 * (3891 / 1000)

/-- Decides `|x| < mu + cBound * sqrt v` (with `v` the variance, so
`std = sqrt v`) in exact rational arithmetic: for `|x| - mu < 0` the bound
holds outright; otherwise both sides are nonnegative and squaring is
faithful.  `keep_iff_real` below proves this equivalence. -/
def keep (mu v : ℚ) (x : ℚ) : Bool :=
  decide (|x| - mu < 0) || decide ((|x| - mu) ^ 2 < cBound ^ 2 * v)

/-- One rejection round: compute `mu = np.median(noise)`, `std = np.std(noise)`,
then retain `noise[np.abs(noise) < mu + 2 * 3.891 * std]`. -/
def rejectStep (noise : List ℚ) : List ℚ :=
  noise.filter (fun x => keep (median noise) (variance noise) x)

/-- `DataSet.estimate_background`, with the random permutation `perm` as an
explicit parameter.  Out-of-range gather raises `IndexError`; `np.max` of an
empty array raises `ValueError`. -/
def estimate_background (perm : List ℕ) (data : List ℕ) : Except PyErr ℚ :=
  if perm.all (fun i => decide (i < data.length)) then
    match (rejectStep^[20] (sortAsc (sampleOf perm data))).max? with
    | some m => Except.ok m
    | none => Except.error PyErr.valueError
  else Except.error PyErr.indexError

/-- A flat position `pos` of the loaded volume can contribute to the working
sample for some draw of `np.random.permutation(40000)`: some valid
permutation contains `pos` among the gathered indices. -/
def canAppearInSample (pos : ℕ) : Prop :=
  ∃ perm : List ℕ, perm.Perm (List.range SAMPLE_SIZE) ∧ pos ∈ perm

end Darling

namespace Darling

/-! ## Theorems about the Thresholder -/

/-- C2: after `subtract v` every element of a `uint16` buffer equals
`max(original, v) - v`; nothing wraps modulo 2^16 and every result is again a
valid `uint16` value (nonnegativity is inherent to `ℕ`). -/
theorem subtract_clip_then_sub_spec (v : ℕ) (data : List ℕ)
    (hv : v < U16) (hd : ∀ x ∈ data, x < U16) :
    subtract v data = data.map (fun x => max x v - v)
    ∧ ∀ y ∈ subtract v data, y < U16 := by
  have hmap : subtract v data = data.map (fun x => max x v - v) := by
    unfold subtract subScalarU16 clipMin
    rw [List.map_map]
    refine List.map_congr_left (fun x hx => ?_)
    have hx16 : x < U16 := hd x hx
    have hvmod : v % U16 = v := Nat.mod_eq_of_lt hv
    simp only [Function.comp, hvmod]
    have hle : v ≤ max x v := le_max_right x v
    have hlt : max x v < U16 := by
      rcases max_cases x v with ⟨h, _⟩ | ⟨h, _⟩ <;> omega
    have : max x v + (U16 - v) = (max x v - v) + U16 := by omega
    rw [this, Nat.add_mod_right, Nat.mod_eq_of_lt (by omega)]
  refine ⟨hmap, ?_⟩
  intro y hy
  rw [hmap] at hy
  rcases List.mem_map.mp hy with ⟨x, hx, rfl⟩
  have hx16 : x < U16 := hd x hx
  rcases max_cases x v with ⟨h, _⟩ | ⟨h, _⟩ <;> omega

/-- Witness for C2 at a concrete buffer and value. -/
theorem subtract_clip_then_sub_spec_witness :
    3 < U16 ∧ (∀ x ∈ [0, 5, 70], x < U16)
    ∧ subtract 3 [0, 5, 70] = [0, 5, 70].map (fun x => max x 3 - 3) :=
  ⟨by decide, by decide,
    (subtract_clip_then_sub_spec 3 [0, 5, 70] (by decide) (by decide)).1⟩

end Darling

namespace Darling

/-! ## Theorems about the BackgroundEstimator -/

/-- The variance of any working sample is nonnegative. -/
theorem variance_nonneg (xs : List ℚ) : 0 ≤ variance xs := by
  unfold variance
  apply div_nonneg
  · apply List.sum_nonneg
    intro y hy
    rcases List.mem_map.mp hy with ⟨z, _, rfl⟩
    positivity
  · positivity

/-- The boolean rational-arithmetic test `keep` decides exactly the
real-number inequality of the source,
`np.abs(x) < mu + 2 * 3.891 * std` with `std = sqrt(variance)`. -/
theorem keep_iff_real (mu v x : ℚ) :
    keep mu v x = true ↔
      |(x : ℝ)| < (mu : ℝ) + 2 * (3891 / 1000) * Real.sqrt (v : ℝ) := by
  have hcast : ((cBound : ℚ) : ℝ) = 2 * (3891 / 1000) := by
    unfold cBound; push_cast; norm_num
  set s : ℝ := Real.sqrt (v : ℝ) with hsdef
  have hs0 : 0 ≤ s := Real.sqrt_nonneg _
  have hc0 : (0 : ℝ) ≤ ((cBound : ℚ) : ℝ) := by rw [hcast]; norm_num
  have hgoal : (|(x : ℝ)| < (mu : ℝ) + 2 * (3891 / 1000) * s) ↔
      (((|x| - mu : ℚ)) : ℝ) < ((cBound : ℚ) : ℝ) * s := by
    rw [hcast]; push_cast
    constructor <;> intro h <;> linarith
  rw [keep, Bool.or_eq_true, decide_eq_true_eq, decide_eq_true_eq, hgoal]
  by_cases hneg : |x| - mu < 0
  · refine iff_of_true (Or.inl hneg) ?_
    have hneg' : (((|x| - mu : ℚ)) : ℝ) < 0 := by exact_mod_cast hneg
    nlinarith [mul_nonneg hc0 hs0]
  · push_neg at hneg
    have hd0 : (0 : ℝ) ≤ (((|x| - mu : ℚ)) : ℝ) := by exact_mod_cast hneg
    have hsq : ((cBound : ℚ) : ℝ) * s = Real.sqrt (((cBound : ℚ) : ℝ) ^ 2 * (v : ℝ)) := by
      rw [Real.sqrt_mul (by positivity), Real.sqrt_sq hc0]
    have hiff : (((|x| - mu : ℚ)) : ℝ) < ((cBound : ℚ) : ℝ) * s ↔
        (((|x| - mu : ℚ)) : ℝ) ^ 2 < ((cBound : ℚ) : ℝ) ^ 2 * (v : ℝ) := by
      rw [hsq, Real.lt_sqrt hd0]
    have hq : ((((|x| - mu : ℚ)) : ℝ) ^ 2 < ((cBound : ℚ) : ℝ) ^ 2 * (v : ℝ)) ↔
        ((|x| - mu) ^ 2 < cBound ^ 2 * v) := by
      constructor <;> intro h
      · exact_mod_cast h
      · exact_mod_cast h
    constructor
    · rintro (h | h)
      · exact absurd h (not_lt.mpr hneg)
      · exact hiff.mpr (hq.mpr h)
    · intro h
      exact Or.inr (hq.mp (hiff.mp h))

/-- C7: on an in-range index draw, `estimate_background` is exactly twenty
rejection rounds followed by taking the maximum of the final retained sample
(`ValueError` if that sample is empty); and each round retains exactly those
elements whose absolute value is below `median + 2 * 3.891 * sqrt(variance)`,
i.e. below `mu + 2 * 3.891 * std`. -/
theorem estimate_background_twenty_round_rejection (perm : List ℕ) (data : List ℕ)
    (h : perm.all (fun i => decide (i < data.length)) = true) :
    (estimate_background perm data =
      match (rejectStep^[20] (sortAsc (sampleOf perm data))).max? with
      | some m => Except.ok m
      | none => Except.error PyErr.valueError)
    ∧ ∀ (noise : List ℚ) (y : ℚ),
        y ∈ rejectStep noise ↔
          y ∈ noise ∧ |(y : ℝ)| <
            (median noise : ℝ) + 2 * (3891 / 1000) * Real.sqrt ((variance noise : ℝ)) := by
  constructor
  · unfold estimate_background
    rw [if_pos h]
  · intro noise y
    unfold rejectStep
    rw [List.mem_filter]
    exact and_congr_right fun _ => keep_iff_real _ _ _

/-- Witness for C7 at a concrete two-element volume sampled at position 0. -/
theorem estimate_background_twenty_round_rejection_witness :
    ([0].all (fun i => decide (i < ([3, 9] : List ℕ).length)) = true)
    ∧ estimate_background [0] [3, 9] =
        match (rejectStep^[20] (sortAsc (sampleOf [0] [3, 9]))).max? with
        | some m => Except.ok m
        | none => Except.error PyErr.valueError :=
  ⟨by decide, (estimate_background_twenty_round_rejection [0] [3, 9] (by decide)).1⟩

/-- C8: when the twenty rejection rounds empty the working sample, the
operation surfaces an error (the `ValueError` that `np.max` raises on an
empty array) instead of returning a degenerate background value. -/
theorem estimate_background_empty_sample_error (perm data : List ℕ)
    (hidx : perm.all (fun i => decide (i < data.length)) = true)
    (hempty : rejectStep^[20] (sortAsc (sampleOf perm data)) = []) :
    estimate_background perm data = Except.error PyErr.valueError := by
  unfold estimate_background
  rw [if_pos hidx, hempty]
  rfl

/-- Rejection applied to an empty working sample keeps it empty. -/
theorem rejectStep_nil : rejectStep [] = [] := rfl

/-- Iterated rejection of the empty working sample stays empty. -/
theorem iterate_rejectStep_nil (n : ℕ) : rejectStep^[n] [] = [] := by
  induction n with
  | zero => rfl
  | succ n ih => rw [Function.iterate_succ_apply, rejectStep_nil, ih]

/-- A one-element working sample has zero variance, so the strict rejection
bound discards its only element in the first round. -/
theorem rejectStep_single : rejectStep [(5 : ℚ)] = [] := by
  have hmu : median [(5 : ℚ)] = 5 := rfl
  have hvar : variance [(5 : ℚ)] = 0 := by
    norm_num [variance, listMean]
  have hkeep : keep (median [(5 : ℚ)]) (variance [(5 : ℚ)]) 5 = false := by
    rw [hmu, hvar]
    simp only [keep, Bool.or_eq_false_iff, decide_eq_false_iff_not]
    norm_num
  simp [rejectStep, List.filter_cons, hkeep]

/-- The concrete sample of the C8 witness is emptied by the 20 rounds. -/
theorem background_sample_five_empties :
    rejectStep^[20] (sortAsc (sampleOf [0] [5])) = [] := by
  have hsample : sortAsc (sampleOf [0] [5]) = [(5 : ℚ)] := by
    norm_num [sampleOf, sortAsc, insertSorted]
  rw [hsample, Function.iterate_succ_apply, rejectStep_single,
    iterate_rejectStep_nil]

/-- Witness for C8: a constant sample has zero variance, so the very first
round rejects everything and the call fails. -/
theorem estimate_background_empty_sample_error_witness :
    ([0].all (fun i => decide (i < ([5] : List ℕ).length)) = true)
    ∧ rejectStep^[20] (sortAsc (sampleOf [0] [5])) = []
    ∧ estimate_background [0] [5] = Except.error PyErr.valueError :=
  ⟨by decide, background_sample_five_empties,
    estimate_background_empty_sample_error [0] [5] (by decide)
      background_sample_five_empties⟩

/-- C10: any volume with fewer than 40000 elements makes
`estimate_background` fail with an out-of-range indexing error, since the
index draw always contains the flat position 39999. -/
theorem estimate_background_small_volume_index_error (perm data : List ℕ)
    (hperm : perm.Perm (List.range SAMPLE_SIZE))
    (hsize : data.length < SAMPLE_SIZE) :
    estimate_background perm data = Except.error PyErr.indexError := by
  have hnot : ¬ (perm.all (fun i => decide (i < data.length)) = true) := by
    intro hall
    rw [List.all_eq_true] at hall
    have hpos : 0 < SAMPLE_SIZE := by decide
    have hmem : SAMPLE_SIZE - 1 ∈ perm :=
      hperm.mem_iff.mpr (List.mem_range.mpr (Nat.sub_lt hpos Nat.one_pos))
    have hlt := hall _ hmem
    rw [decide_eq_true_eq] at hlt
    omega
  unfold estimate_background
  rw [if_neg hnot]

/-- Witness for C10 at the empty volume. -/
theorem estimate_background_small_volume_index_error_witness :
    (List.range SAMPLE_SIZE).Perm (List.range SAMPLE_SIZE)
    ∧ ([] : List ℕ).length < SAMPLE_SIZE
    ∧ estimate_background (List.range SAMPLE_SIZE) [] = Except.error PyErr.indexError :=
  ⟨List.Perm.refl _, by decide,
    estimate_background_small_volume_index_error _ _ (List.Perm.refl _) (by decide)⟩

/-- C4 counterexample: in a flattened volume of 40001 elements the last flat
position (index 40000) is a valid position, yet no draw of
`np.random.permutation(40000)` ever places it in the working sample. -/
theorem sample_position_beyond_block_unreachable :
    40000 < 40001 ∧ ¬ canAppearInSample 40000 := by
  refine ⟨by decide, ?_⟩
  rintro ⟨perm, hperm, hmem⟩
  have hr : (40000 : ℕ) ∈ List.range SAMPLE_SIZE := hperm.mem_iff.mp hmem
  rw [List.mem_range] at hr
  exact absurd hr (by decide)

/-- C4 amended: the working sample always has exactly 40000 entries and
consists of the elements at the first 40000 flat positions of the volume (in
a randomly permuted order); a flat position contributes to the sample exactly
when its index is below 40000. -/
theorem sample_positions_first_block (perm : List ℕ)
    (hperm : perm.Perm (List.range SAMPLE_SIZE)) :
    (∀ data : List ℕ, (sampleOf perm data).length = SAMPLE_SIZE)
    ∧ ∀ pos : ℕ, pos ∈ perm ↔ pos < SAMPLE_SIZE := by
  constructor
  · intro data
    rw [sampleOf, List.length_map, hperm.length_eq, List.length_range]
  · intro pos
    rw [hperm.mem_iff, List.mem_range]

/-- Witness for the amended C4 at the identity permutation and position 0. -/
theorem sample_positions_first_block_witness :
    (List.range SAMPLE_SIZE).Perm (List.range SAMPLE_SIZE)
    ∧ ((0 : ℕ) ∈ List.range SAMPLE_SIZE ↔ 0 < SAMPLE_SIZE) :=
  ⟨List.Perm.refl _, (sample_positions_first_block _ (List.Perm.refl _)).2 0⟩

end Darling

namespace Darling

/-! ## `DataSet.integrate`

Source (`_dataset.py:350`):
```
out = np.zeros((self.data.shape[0], self.data.shape[1]), np.float32)
integrated_frames = np.sum(self.data, axis=(2, 3), out=out)
```
`np.sum` reduces only axes 2 and 3.  On a 4-d volume the reduced result has
shape `(R, C)` and is accumulated into `out`; on a 5-d volume the reduced
result has shape `(R, C, O)`, which does not match the 2-d `out` buffer, and
numpy raises `ValueError`.  float32 counts of interest are integers far below
2^24, so the accumulation is modelled exactly in `ℚ`. -/

/-- A raw counts volume: 4-d `(R, C, M1, M2)` or 5-d `(R, C, M1, M2, M3)`. -/
inductive RawVolume where
  | d4 : (R C M N : ℕ) → (Fin R → Fin C → Fin M → Fin N → ℕ) → RawVolume
  | d5 : (R C M N O : ℕ) → (Fin R → Fin C → Fin M → Fin N → Fin O → ℕ) → RawVolume

/-- `np.sum(data, axis=(2, 3), out=out)` on a 4-d volume: accumulate each
pixel's counts over the two motor axes directly into the `out` cell. -/
def integrate4 {R C M N : ℕ} (counts : Fin R → Fin C → Fin M → Fin N → ℕ) :
    Fin R → Fin C → ℚ :=
  fun r c =>
    (List.finRange M).foldl
      (fun acc m =>
        (List.finRange N).foldl (fun acc2 n => acc2 + (counts r c m n : ℚ)) acc)
      0

/-- `DataSet.integrate`: per-pixel sum over axes 2 and 3 into the float32
`out` buffer; a 5-d volume makes the reduction shape `(R, C, O)` mismatch the
`(R, C)` output buffer and numpy raises `ValueError`. -/
def integrate : RawVolume → Except PyErr ((R : ℕ) × (C : ℕ) × (Fin R → Fin C → ℚ))
  | .d4 R C _ _ counts => .ok ⟨R, C, integrate4 counts⟩
  | .d5 _ _ _ _ _ _ => .error .valueError

/-- Left fold of successive additions equals adding the list sum. -/
theorem foldl_add_eq_add_sum {α : Type} (f : α → ℚ) (l : List α) (a : ℚ) :
    l.foldl (fun acc x => acc + f x) a = a + (l.map f).sum := by
  induction l generalizing a with
  | nil => simp
  | cons x xs ih => simp [ih, add_assoc]

/-- The accumulation of `integrate` computes the per-pixel double sum over
the two motor axes. -/
theorem integrate4_eq_sum {R C M N : ℕ}
    (counts : Fin R → Fin C → Fin M → Fin N → ℕ) (r : Fin R) (c : Fin C) :
    integrate4 counts r c = ∑ m : Fin M, ∑ n : Fin N, (counts r c m n : ℚ) := by
  unfold integrate4
  have hinner : (fun (acc : ℚ) (m : Fin M) =>
      (List.finRange N).foldl (fun acc2 n => acc2 + (counts r c m n : ℚ)) acc)
      = fun acc m => acc + ∑ n : Fin N, (counts r c m n : ℚ) := by
    funext a m
    rw [foldl_add_eq_add_sum, Fin.sum_univ_def]
  rw [hinner, foldl_add_eq_add_sum, zero_add, Fin.sum_univ_def]

/-- C5 counterexample: on a concrete 5-d volume `integrate` surfaces
numpy's `ValueError` instead of returning the per-pixel sum over all three
motor dimensions (which would be the all-zero `1 × 1` map here). -/
theorem integrate_5d_value_error :
    integrate (RawVolume.d5 1 1 1 1 1 (fun _ _ _ _ _ => 0)) =
        Except.error PyErr.valueError
    ∧ integrate (RawVolume.d5 1 1 1 1 1 (fun _ _ _ _ _ => 0)) ≠
        Except.ok ⟨1, 1, fun _ _ => 0⟩ :=
  ⟨rfl, by simp [integrate]⟩

/-- C5 amended: `integrate` sums each detector pixel over exactly the first
two motor dimensions; on a 4-d volume it returns the `(R, C)` map of those
sums, while on a 5-d volume (third motor dimension present) it fails with
numpy's `ValueError` because the reduction of axes 2 and 3 has shape
`(R, C, O)` and cannot be written into the `(R, C)` output buffer. -/
theorem integrate_sums_first_two_motor_axes :
    (∀ (R C M N : ℕ) (counts : Fin R → Fin C → Fin M → Fin N → ℕ),
      integrate (RawVolume.d4 R C M N counts) =
        Except.ok ⟨R, C, fun r c => ∑ m : Fin M, ∑ n : Fin N, (counts r c m n : ℚ)⟩)
    ∧ ∀ (R C M N O : ℕ) (counts : Fin R → Fin C → Fin M → Fin N → Fin O → ℕ),
      integrate (RawVolume.d5 R C M N O counts) = Except.error PyErr.valueError := by
  constructor
  · intro R C M N counts
    have hfun : integrate4 counts
        = fun r c => ∑ m : Fin M, ∑ n : Fin N, (counts r c m n : ℚ) := by
      funext r c
      exact integrate4_eq_sum counts r c
    simp only [integrate, hfun]
  · intro R C M N O counts
    rfl

end Darling

namespace Darling

/-! ## MaskEstimator: `DataSet.estimate_mask`

Source (`_dataset.py:362`):
```
mask = self.integrate() > threshold
mask = scipy.ndimage.binary_erosion(
    mask, structure=np.ones((2, 2)), iterations=erosion_iterations)
mask = scipy.ndimage.binary_dilation(
    mask, structure=np.ones((2, 2)), iterations=dilation_iterations)
if fill_holes:
    mask = scipy.ndimage.binary_fill_holes(mask)
```
scipy.ndimage semantics, per its documentation: a `2 x 2` structuring
element with the default origin has its anchor at index `(1, 1)`, so
erosion inspects the offsets `(-1, -1), (-1, 0), (0, -1), (0, 0)` and
dilation the mirrored offsets `(0, 0), (0, 1), (1, 0), (1, 1)`;
out-of-range neighbours read `border_value = 0`; and when `iterations` is
less than 1 the operation is repeated until the result does not change
anymore. -/

/-- Boolean detector-space mask of shape `(R, C)`. -/
abbrev Grid (R C : ℕ) := Fin R → Fin C → Bool

/-- The all-background mask. -/
def allFalse (R C : ℕ) : Grid R C := fun _ _ => false

/-- Read a mask at integer coordinates; out-of-range reads give scipy's
`border_value = 0`, i.e. `false`. -/
def getB {R C : ℕ} (g : Grid R C) (i j : ℤ) : Bool :=
  if h : 0 ≤ i ∧ i < (R : ℤ) ∧ 0 ≤ j ∧ j < (C : ℤ) then
    g ⟨i.toNat, by omega⟩ ⟨j.toNat, by omega⟩
  else false

/-- One `binary_erosion` with structure `np.ones((2, 2))`: a pixel survives
iff its whole offset neighbourhood `(-1..0) x (-1..0)` is foreground. -/
def erode {R C : ℕ} (g : Grid R C) : Grid R C := fun i j =>
  getB g ((i : ℤ) - 1) ((j : ℤ) - 1) && getB g ((i : ℤ) - 1) (j : ℤ) &&
    getB g (i : ℤ) ((j : ℤ) - 1) && getB g (i : ℤ) (j : ℤ)

/-- One `binary_dilation` with structure `np.ones((2, 2))` (mirrored for
dilation): a pixel becomes foreground iff any cell of its offset
neighbourhood `(0..1) x (0..1)` is foreground. -/
def dilate {R C : ℕ} (g : Grid R C) : Grid R C := fun i j =>
  getB g (i : ℤ) (j : ℤ) || getB g (i : ℤ) ((j : ℤ) + 1) ||
    getB g ((i : ℤ) + 1) (j : ℤ) || getB g ((i : ℤ) + 1) ((j : ℤ) + 1)

/-- Repeat `f` until the result no longer changes, with explicit fuel. -/
def untilStable {R C : ℕ} (f : Grid R C → Grid R C) : ℕ → Grid R C → Grid R C
  | 0, g => g
  | fuel + 1, g => if f g = g then g else untilStable f fuel (f g)

/-- scipy's `iterations` convention: a positive count applies the operation
that many times; `iterations < 1` repeats until the result does not change
anymore (a pointwise monotone operation on an `R x C` grid stabilizes within
`R * C + 1` rounds, so that much fuel realizes the limit). -/
def scipyIterate {R C : ℕ} (f : Grid R C → Grid R C) (iterations : ℕ)
    (g : Grid R C) : Grid R C :=
  if iterations = 0 then untilStable f (R * C + 1) g else f^[iterations] g

/-- Border test for the flood fill of `binary_fill_holes`. -/
def isBorder {R C : ℕ} (i : Fin R) (j : Fin C) : Bool :=
  decide (i.val = 0) || decide (i.val = R - 1) || decide (j.val = 0) ||
    decide (j.val = C - 1)

/-- Seed of the flood fill: background cells on the image border. -/
def holeSeed {R C : ℕ} (g : Grid R C) : Grid R C := fun i j =>
  !g i j && isBorder i j

/-- One flood step over the background of `g` (4-connectivity, scipy's
default cross structuring element). -/
def floodStep {R C : ℕ} (g s : Grid R C) : Grid R C := fun i j =>
  !g i j && (s i j || getB s ((i : ℤ) - 1) (j : ℤ) ||
    getB s ((i : ℤ) + 1) (j : ℤ) || getB s (i : ℤ) ((j : ℤ) - 1) ||
    getB s (i : ℤ) ((j : ℤ) + 1) || holeSeed g i j)

/-- `binary_fill_holes`: background cells flood-connected to the border stay
background; every other cell becomes foreground. -/
def fillHoles {R C : ℕ} (g : Grid R C) : Grid R C :=
  let background := (floodStep g)^[R * C + 1] (holeSeed g)
  fun i j => g i j || !background i j

/-- Steps 1 and 2 of `estimate_mask`: `self.integrate() > threshold`. -/
def rawMask {R C M N : ℕ} (counts : Fin R → Fin C → Fin M → Fin N → ℕ)
    (threshold : ℚ) : Grid R C :=
  fun r c => decide (threshold < integrate4 counts r c)

/-- `DataSet.estimate_mask` on a loaded 4-d volume. -/
def estimate_mask {R C M N : ℕ} (counts : Fin R → Fin C → Fin M → Fin N → ℕ)
    (threshold : ℚ) (erosion_iterations dilation_iterations : ℕ)
    (fill_holes : Bool) : Grid R C :=
  let mask1 := rawMask counts threshold
  let mask2 := scipyIterate erode erosion_iterations mask1
  let mask3 := scipyIterate dilate dilation_iterations mask2
  if fill_holes then fillHoles mask3 else mask3

/-- In-range reads return the mask value. -/
theorem getB_coe {R C : ℕ} (g : Grid R C) (i : Fin R) (j : Fin C) :
    getB g (i : ℤ) (j : ℤ) = g i j := by
  have hi := i.isLt
  have hj := j.isLt
  unfold getB
  rw [dif_pos (by refine ⟨?_, ?_, ?_, ?_⟩ <;> omega)]
  congr 1

/-- Out-of-range and in-range reads of the all-background mask are `false`. -/
theorem getB_allFalse {R C : ℕ} (i j : ℤ) : getB (allFalse R C) i j = false := by
  unfold getB allFalse
  split <;> rfl

/-- Erosion of the all-background mask is itself. -/
theorem erode_allFalse {R C : ℕ} : erode (allFalse R C) = allFalse R C := by
  funext i j
  simp [erode, getB_allFalse, allFalse]

/-- Dilation of the all-background mask is itself. -/
theorem dilate_allFalse {R C : ℕ} : dilate (allFalse R C) = allFalse R C := by
  funext i j
  simp [dilate, getB_allFalse, allFalse]

/-- An eroded pixel was already foreground: the structuring element contains
the offset `(0, 0)`. -/
theorem erode_le {R C : ℕ} (g : Grid R C) (i : Fin R) (j : Fin C)
    (h : erode g i j = true) : g i j = true := by
  unfold erode at h
  simp only [Bool.and_eq_true, getB_coe] at h
  exact h.2

/-- Number of foreground pixels of a mask. -/
def trueCount {R C : ℕ} (g : Grid R C) : ℕ :=
  (Finset.univ.filter (fun p : Fin R × Fin C => g p.1 p.2 = true)).card

/-- A mask with no foreground pixel is the all-background mask. -/
theorem trueCount_eq_zero_iff {R C : ℕ} (g : Grid R C) :
    trueCount g = 0 ↔ g = allFalse R C := by
  unfold trueCount allFalse
  rw [Finset.card_eq_zero, Finset.filter_eq_empty_iff]
  constructor
  · intro h
    funext i j
    simpa using h (Finset.mem_univ (i, j))
  · intro h p _
    rw [h]
    simp

/-- Each erosion of a mask that still has a foreground pixel strictly
removes pixels: the whole topmost occupied row is cleared because the row
above it (or the border) is background. -/
theorem trueCount_erode_lt {R C : ℕ} (g : Grid R C) (hne : g ≠ allFalse R C) :
    trueCount (erode g) < trueCount g := by
  have hex : ∃ p : Fin R × Fin C, g p.1 p.2 = true := by
    by_contra hno
    push_neg at hno
    refine hne (funext fun i => funext fun j => ?_)
    simpa using hno (i, j)
  obtain ⟨p0, hp0⟩ := hex
  have hrowsne :
      (Finset.univ.filter (fun i : Fin R => ∃ j, g i j = true)).Nonempty :=
    ⟨p0.1, Finset.mem_filter.mpr ⟨Finset.mem_univ _, ⟨p0.2, hp0⟩⟩⟩
  set r := (Finset.univ.filter (fun i : Fin R => ∃ j, g i j = true)).min' hrowsne
    with hrdef
  have hrmem := Finset.min'_mem _ hrowsne
  rw [← hrdef] at hrmem
  obtain ⟨j0, hj0⟩ := (Finset.mem_filter.mp hrmem).2
  have habove : ∀ (i : Fin R), (i : ℕ) < (r : ℕ) → ∀ j, g i j = false := by
    intro i hilt j
    by_contra hgj
    rw [Bool.not_eq_false] at hgj
    have hle : r ≤ i := by
      rw [hrdef]
      exact Finset.min'_le _ _ (Finset.mem_filter.mpr ⟨Finset.mem_univ _, ⟨j, hgj⟩⟩)
    have : (r : ℕ) ≤ (i : ℕ) := hle
    omega
  have hclear : erode g r j0 = false := by
    have h2 : getB g ((r : ℤ) - 1) (j0 : ℤ) = false := by
      unfold getB
      by_cases hb : 0 ≤ (r : ℤ) - 1 ∧ (r : ℤ) - 1 < (R : ℤ) ∧
          0 ≤ (j0 : ℤ) ∧ (j0 : ℤ) < (C : ℤ)
      · rw [dif_pos hb]
        refine habove ⟨((r : ℤ) - 1).toNat, by omega⟩ ?_ _
        show ((r : ℤ) - 1).toNat < (r : ℕ)
        omega
      · rw [dif_neg hb]
    unfold erode
    rw [h2]
    simp
  apply Finset.card_lt_card
  rw [Finset.ssubset_iff_of_subset]
  · refine ⟨(r, j0), Finset.mem_filter.mpr ⟨Finset.mem_univ _, hj0⟩, ?_⟩
    simp [Finset.mem_filter, hclear]
  · intro p hp
    rw [Finset.mem_filter] at hp ⊢
    exact ⟨hp.1, erode_le g p.1 p.2 hp.2⟩

/-- With fuel at least the number of foreground pixels, repeated erosion
reaches the all-background mask (and in particular its fixed point). -/
theorem untilStable_erode_eq_allFalse {R C : ℕ} (fuel : ℕ) (g : Grid R C)
    (hfuel : trueCount g ≤ fuel) : untilStable erode fuel g = allFalse R C := by
  induction fuel generalizing g with
  | zero =>
    rw [untilStable]
    exact (trueCount_eq_zero_iff g).mp (Nat.le_zero.mp hfuel)
  | succ fuel ih =>
    rw [untilStable]
    by_cases hfix : erode g = g
    · rw [if_pos hfix]
      by_contra hne
      have hlt := trueCount_erode_lt g hne
      rw [hfix] at hlt
      omega
    · rw [if_neg hfix]
      apply ih
      have hne : g ≠ allFalse R C := by
        intro h
        exact hfix (by rw [h, erode_allFalse])
      have hlt := trueCount_erode_lt g hne
      omega

/-- A fixed point of `f` is returned unchanged by `untilStable`. -/
theorem untilStable_fixed {R C : ℕ} (f : Grid R C → Grid R C) (fuel : ℕ)
    (g : Grid R C) (hfix : f g = g) : untilStable f fuel g = g := by
  cases fuel with
  | zero => rfl
  | succ fuel => rw [untilStable, if_pos hfix]

/-- Any mask has at most `R * C` foreground pixels. -/
theorem trueCount_le {R C : ℕ} (g : Grid R C) : trueCount g ≤ R * C := by
  unfold trueCount
  calc (Finset.univ.filter (fun p : Fin R × Fin C => g p.1 p.2 = true)).card
      ≤ (Finset.univ : Finset (Fin R × Fin C)).card := Finset.card_filter_le _ _
    _ = R * C := by simp [Finset.card_univ]

/-- `estimate_mask` with both iteration counts 0 and no hole filling maps
every volume to the all-background mask: scipy erodes to convergence, which
empties the mask, and dilation to convergence keeps it empty. -/
theorem estimate_mask_zero_iters {R C M N : ℕ}
    (counts : Fin R → Fin C → Fin M → Fin N → ℕ) (threshold : ℚ) :
    estimate_mask counts threshold 0 0 false = allFalse R C := by
  have h1 : untilStable erode (R * C + 1) (rawMask counts threshold)
      = allFalse R C :=
    untilStable_erode_eq_allFalse _ _
      (le_trans (trueCount_le _) (Nat.le_succ _))
  unfold estimate_mask scipyIterate
  norm_num
  rw [h1, untilStable_fixed _ _ _ dilate_allFalse]

end Darling

namespace Darling

/-- C3 counterexample: for the constant `2 x 2 x 1 x 1` volume of count 300
and threshold 200, the raw threshold comparison is all-foreground, but
`estimate_mask` with `erosion_iterations = 0`, `dilation_iterations = 0`,
`fill_holes = false` returns the all-background mask: scipy repeats the
morphology until convergence when `iterations` is less than 1, it does not
skip it. -/
theorem estimate_mask_zero_iterations_not_raw :
    estimate_mask (fun (_ : Fin 2) (_ : Fin 2) (_ : Fin 1) (_ : Fin 1) => 300)
        (200 : ℚ) 0 0 false ≠
      rawMask (fun (_ : Fin 2) (_ : Fin 2) (_ : Fin 1) (_ : Fin 1) => 300)
        (200 : ℚ) := by
  intro h
  have h0 : rawMask (fun (_ : Fin 2) (_ : Fin 2) (_ : Fin 1) (_ : Fin 1) => 300)
      (200 : ℚ) 0 0 = true := by
    unfold rawMask
    rw [decide_eq_true_eq, integrate4_eq_sum]
    norm_num
  have h1 := estimate_mask_zero_iters
    (fun (_ : Fin 2) (_ : Fin 2) (_ : Fin 1) (_ : Fin 1) => 300) (200 : ℚ)
  rw [h1] at h
  have h2 := congrFun (congrFun h.symm 0) 0
  rw [h0] at h2
  simp [allFalse] at h2

/-- C3 amended: with `erosion_iterations = 0`, `dilation_iterations = 0`,
`fill_holes = false`, `estimate_mask` does not return the raw threshold
comparison; scipy treats `iterations < 1` as "repeat until no change", so
the erosion empties the mask and the result is all-background for every
volume and threshold. -/
theorem estimate_mask_zero_iterations_all_false :
    ∀ (R C M N : ℕ) (counts : Fin R → Fin C → Fin M → Fin N → ℕ)
      (threshold : ℚ),
      estimate_mask counts threshold 0 0 false = allFalse R C :=
  fun _ _ _ _ counts threshold => estimate_mask_zero_iters counts threshold

end Darling

namespace Darling

/-! ## MomentEngine (`darling.properties.moments`) and
`DataSet.compile_layers`

`DataSet.moments` (`_dataset.py:338`) delegates to
`darling.properties.moments(self.data, self.motors)`. -/

/-- Per-layer mean map: entry `[r, c, k]` is the weighted mean motor
coordinate of axis `k`; `none` models the floating-point NaN of a `0/0`. -/
abbrev MeanMap (R C : ℕ) := Fin R → Fin C → Fin 2 → Option ℚ

/-- Per-layer covariance map: entry `[r, c, k, l]`; `none` models NaN. -/
abbrev CovMap (R C : ℕ) := Fin R → Fin C → Fin 2 → Fin 2 → Option ℚ

/-- One loaded scan: the raw counts volume and its two motor axes, as
produced by `DataSet.load_scan` through the reader. -/
structure Scan4 (R C M N : ℕ) where
  counts : Fin R → Fin C → Fin M → Fin N → ℕ
  motor1 : Fin M → ℚ
  motor2 : Fin N → ℚ

/-- Motor coordinate of axis `k` at motor-grid point `(m, n)`. -/
def axisVal {R C M N : ℕ} (s : Scan4 R C M N) (k : Fin 2) (m : Fin M)
    (n : Fin N) : ℚ :=
  if k = 0 then s.motor1 m else s.motor2 n

/-- Total count weight `w` of a detector pixel. -/
def pixelWeight {R C M N : ℕ} (s : Scan4 R C M N) (r : Fin R) (c : Fin C) : ℚ :=
  ∑ m : Fin M, ∑ n : Fin N, (s.counts r c m n : ℚ)

/-- Weighted mean motor coordinate of axis `k` at a pixel. -/
def pixelMean {R C M N : ℕ} (s : Scan4 R C M N) (r : Fin R) (c : Fin C)
    (k : Fin 2) : ℚ :=
  (∑ m : Fin M, ∑ n : Fin N, axisVal s k m n * (s.counts r c m n : ℚ)) /
    pixelWeight s r c

/-- Modelled from the spec: `darling.properties.moments`, called by
`DataSet.moments` (`_dataset.py:347`), lives in `darling/properties.py`,
which is not among the provided source files.  Spec section 4.1: per detector
pixel, with `w` the total weight, the mean of axis `k` is
`sum(axis_k value * weight) / w` and the covariance of axes `(k, l)` is
`sum(weight * (v_k - mu_k) * (v_l - mu_l)) / w`; when `w = 0` the `0/0`
propagates as floating-point NaN (modelled `none`) rather than raising, so
the model is a total function. -/
def moments {R C M N : ℕ} (s : Scan4 R C M N) : MeanMap R C × CovMap R C :=
  (fun r c k =>
     if pixelWeight s r c = 0 then none else some (pixelMean s r c k),
   fun r c k l =>
     if pixelWeight s r c = 0 then none else
       some ((∑ m : Fin M, ∑ n : Fin N, (s.counts r c m n : ℚ) *
         (axisVal s k m n - pixelMean s r c k) *
         (axisVal s l m n - pixelMean s r c l)) / pixelWeight s r c))

/-- Scan identifiers such as "1.1". -/
abbrev ScanId := String

/-- The attribute names defined on `class DataSet` (`_dataset.py:263`):
its methods plus the instance attributes set in `__init__` and
`load_scan`.  Python resolves `self.<name>` against these and raises
`AttributeError` for any other name. -/
def dataSetMethods : List String :=
  ["__init__", "load_scan", "subtract", "estimate_background", "moments",
    "integrate", "estimate_mask", "compile_layers", "to_paraview",
    "reader", "plot", "mean", "covariance", "mean_3d", "covariance_3d",
    "data", "motors"]

/-- The threshold request of `compile_layers`: a fixed numeric value or the
string "auto"; the `None` default is `Option.none` at the call site. -/
inductive Thresh where
  | fixed (v : ℚ)
  | auto

/-- The per-scan loop of `DataSet.compile_layers` (`_dataset.py:415`):
load the scan, optionally threshold, compute moments, append the two maps to
the growing per-layer lists.  When a threshold is requested (either kind),
both source branches evaluate `self.threshold(...)`; `"threshold"` is not
among `dataSetMethods`, so Python raises `AttributeError` there, before any
subtraction can happen. -/
def compileLayersLoop {R C M N : ℕ} (reader : ScanId → Scan4 R C M N)
    (th : Option Thresh) (accMean : List (MeanMap R C))
    (accCov : List (CovMap R C)) :
    List ScanId → Except PyErr (List (MeanMap R C) × List (CovMap R C))
  | [] => Except.ok (accMean, accCov)
  | sid :: rest =>
    let s := reader sid
    match th with
    | some _ => Except.error PyErr.attributeError
    | none =>
      let mc := moments s
      compileLayersLoop reader th (accMean ++ [mc.1]) (accCov ++ [mc.2]) rest

/-- `DataSet.compile_layers`: sequentially load scans, optionally threshold,
compute moments, and stack the per-layer maps in input order. -/
def compile_layers {R C M N : ℕ} (reader : ScanId → Scan4 R C M N)
    (scan_ids : List ScanId) (threshold : Option Thresh) :
    Except PyErr (List (MeanMap R C) × List (CovMap R C)) :=
  compileLayersLoop reader threshold [] [] scan_ids

/-- C1: for any non-empty scan sequence, requesting a fixed numeric or
"auto" threshold makes `compile_layers` fail with `AttributeError` on the
first layer: the source invokes `self.threshold(...)`, but `DataSet`
defines no attribute named `threshold` (its subtraction method is named
`subtract`), so no subtraction is ever applied before the moments. -/
theorem compile_layers_missing_threshold_method {R C M N : ℕ}
    (reader : ScanId → Scan4 R C M N) (scan_ids : List ScanId) (th : Thresh)
    (hne : scan_ids ≠ []) :
    "threshold" ∉ dataSetMethods ∧ "subtract" ∈ dataSetMethods ∧
      compile_layers reader scan_ids (some th) =
        Except.error PyErr.attributeError := by
  refine ⟨by decide, by decide, ?_⟩
  cases scan_ids with
  | nil => exact absurd rfl hne
  | cons sid rest => rfl

/-- Witness for C1 with one scan and the fixed threshold 100. -/
theorem compile_layers_missing_threshold_method_witness :
    (["1.1"] : List ScanId) ≠ []
    ∧ compile_layers
        (fun _ => (⟨fun _ _ _ _ => 0, fun _ => 0, fun _ => 0⟩ : Scan4 1 1 1 1))
        ["1.1"] (some (Thresh.fixed 100)) = Except.error PyErr.attributeError :=
  ⟨by decide,
    (compile_layers_missing_threshold_method
      (fun _ => (⟨fun _ _ _ _ => 0, fun _ => 0, fun _ => 0⟩ : Scan4 1 1 1 1))
      ["1.1"] (Thresh.fixed 100) (by decide)).2.2⟩

/-- C6: with no threshold requested, `compile_layers` succeeds and returns
the per-layer mean and covariance maps stacked in input order: entry `i` of
each returned stack is the moment map of the `i`-th scan id, so the stacks
have one entry per layer (per-entry shapes `(R, C, 2)` and `(R, C, 2, 2)`
are enforced by the types `MeanMap` and `CovMap`). -/
theorem compile_layers_none_stacks_in_order {R C M N : ℕ}
    (reader : ScanId → Scan4 R C M N) (scan_ids : List ScanId) :
    compile_layers reader scan_ids none =
      Except.ok (scan_ids.map (fun sid => (moments (reader sid)).1),
        scan_ids.map (fun sid => (moments (reader sid)).2)) := by
  have hloop : ∀ (l : List ScanId) (am : List (MeanMap R C))
      (ac : List (CovMap R C)),
      compileLayersLoop reader none am ac l =
        Except.ok (am ++ l.map (fun sid => (moments (reader sid)).1),
          ac ++ l.map (fun sid => (moments (reader sid)).2)) := by
    intro l
    induction l with
    | nil =>
      intro am ac
      simp [compileLayersLoop]
    | cons sid rest ih =>
      intro am ac
      simp only [compileLayersLoop]
      rw [ih]
      simp
  unfold compile_layers
  rw [hloop]
  simp

/-- C9: at every detector pixel of zero total count weight, the moment maps
hold the NaN marker in every mean component and every covariance entry, and
the computation is total — it returns instead of raising. -/
theorem moments_zero_weight_nan {R C M N : ℕ} (s : Scan4 R C M N)
    (r : Fin R) (c : Fin C) (hw : pixelWeight s r c = 0) :
    (∀ k, (moments s).1 r c k = none) ∧
      ∀ k l, (moments s).2 r c k l = none := by
  constructor
  · intro k
    simp [moments, hw]
  · intro k l
    simp [moments, hw]

/-- Witness for C9 at the all-zero `1 x 1 x 1 x 1` volume. -/
theorem moments_zero_weight_nan_witness :
    pixelWeight (⟨fun _ _ _ _ => 0, fun _ => 0, fun _ => 0⟩ : Scan4 1 1 1 1) 0 0 = 0
    ∧ (moments (⟨fun _ _ _ _ => 0, fun _ => 0, fun _ => 0⟩ : Scan4 1 1 1 1)).1
        0 0 0 = none :=
  ⟨by simp [pixelWeight],
    (moments_zero_weight_nan _ 0 0 (by simp [pixelWeight])).1 0⟩

end Darling
